import Mathlib

set_option maxHeartbeats 1000000

/-!
Shallow embedding of `proj3/kernel/p3_rsv.c` (real-time CPU reservation
manager): the reservation store, the rate-monotonic priority recompute
pass, the three syscalls `set_rsv`, `cancel_rsv`, `wait_until_next_period`,
the hrtimer callback `p3_timer_cb`, teardown `p3_free_entry`, and the
exit-cleanup callback `p3_sched_exit_cb`.

The store (`p3_rsv_list`) is a `List Rsv` in list order (entries appended
at the tail, as `list_add_tail` does).  External collaborators
(`copy_from_user`, `pid_task`, `kzalloc`) are modelled by an explicit
environment `Env`.  The concurrency of the wait/timer protocol is
modelled by a per-reservation dynamic state `RState` and an event trace
(`Ev`): a timer firing, a teardown (`p3_free_entry`), or a signal
delivered to the sleeping waiter.
-/

/-- Linux kernel constant from the external header `linux/sched/prio.h`
(not part of this repository), spelled MAX_RT_PRIO in C, value 100. -/
def MAX_RT_PRIORITY : Int := 100

/-- `#define P3_MAX_RSV 50` (p3_rsv.c line 19). -/
def P3_MAX_RSV : Nat := 50

/-- `struct timespec` as copied from user space: two signed integer fields. -/
structure Timespec where
  tv_sec : Int
  tv_nsec : Int
deriving DecidableEq, Repr

/-- Linux `KTIME_MAX` = 2^63 - 1 (external header `linux/ktime.h`). -/
def KTIME_MAX : Int := 9223372036854775807

/-- Linux `KTIME_SEC_MAX` = `KTIME_MAX / NSEC_PER_SEC` (external header). -/
def KTIME_SEC_MAX : Int := KTIME_MAX / 1000000000

/-- Linux `ktime_set(secs, nsecs)` (external header `linux/ktime.h`):
saturates to `KTIME_MAX` when `secs >= KTIME_SEC_MAX`, otherwise
`secs * NSEC_PER_SEC + nsecs`. -/
def ktime_set (secs nsecs : Int) : Int :=
  if KTIME_SEC_MAX ≤ secs then KTIME_MAX else secs * 1000000000 + nsecs

/-- `struct p3_rsv_entry` (p3_rsv.c lines 21-39).  The `timer` field is
abstracted to the boolean `timerArmed` (whether the hrtimer is armed);
the wait queue itself carries no state.  `period_seq` is an `atomic64`
counter that only ever increments, modelled as `Nat` (its 64-bit wrap is
unreachable by increments). -/
structure Rsv where
  pid : Int
  C_ns : Int
  T_ns : Int
  prio : Int
  period_seq : Nat
  canceled : Bool
  timerArmed : Bool
deriving DecidableEq, Repr

/-- The errno values returned by the three syscalls. -/
inductive Errno
  | EFAULT
  | EINVAL
  | ESRCH
  | EBUSY
  | ENOSPC
  | ENOMEM
  | ENOENT
  | EINTR
deriving DecidableEq, Repr

/-- Syscall result: 0 on success or a negative errno. -/
inductive SysRes
  | ok
  | err (e : Errno)
deriving DecidableEq, Repr

/-- Environment for a `set_rsv` call: the outcome of `copy_from_user` on
each user pointer (`none` = unreadable), the external process registry
(`pid_task`-style resolution), and whether `kzalloc` succeeds. -/
structure Env where
  readC : Option Timespec
  readT : Option Timespec
  liveTask : Int → Bool
  allocOk : Bool

/-- `p3_find_locked` (p3_rsv.c lines 46-54): first entry with the given pid. -/
def p3_find_locked (pid : Int) : List Rsv → Option Rsv
  | [] => none
  | e :: es => if e.pid = pid then some e else p3_find_locked pid es

/-- Inner loop of the sort in `p3_reassign_rm_prios_locked` (lines 66-69):
with `x` the current contents of slot `i`, scan slots `j = i+1..n-1`,
swapping whenever `arr[j]->T_ns < arr[i]->T_ns`.  Returns the final
contents of slot `i` (the minimum by `T_ns`) and the final contents of
slots `i+1..n-1` in order. -/
def p3_sort_inner : Rsv → List Rsv → Rsv × List Rsv
  | x, [] => (x, [])
  | x, y :: ys =>
    if y.T_ns < x.T_ns then
      ((p3_sort_inner y ys).1, x :: (p3_sort_inner y ys).2)
    else
      ((p3_sort_inner x ys).1, y :: (p3_sort_inner x ys).2)

/-- Outer loop of the sort (lines 65-69).  The fuel argument is the
number of remaining outer-loop iterations; the loop runs exactly `n`
times, so the whole sort is `p3_sort_run l.length l`. -/
def p3_sort_run : Nat → List Rsv → List Rsv
  | 0, _ => []
  | _, [] => []
  | fuel + 1, x :: xs =>
    (p3_sort_inner x xs).1 :: p3_sort_run fuel (p3_sort_inner x xs).2

/-- The in-place double-loop sort of lines 65-69 as a list function. -/
def p3_sort (l : List Rsv) : List Rsv := p3_sort_run l.length l

/-- Priority for sort rank `i` (line 72 of p3_rsv.c, with the C
constant MAX_RT_PRIO rendered as `MAX_RT_PRIORITY`):
the rank-i priority is one less per rank from the top, floored at 1. -/
def clampPrio (i : Nat) : Int :=
  if (MAX_RT_PRIORITY - 1) - (i : Int) < 1 then 1 else (MAX_RT_PRIORITY - 1) - (i : Int)

/-- The assignment loop of lines 71-78: entry at rank `i` of the sorted
array receives priority `clampPrio i` (the `sched_setscheduler_nocheck`
push to the external scheduler uses the same value). -/
def assignPrios : Nat → List Rsv → List Rsv
  | _, [] => []
  | i, e :: es => { e with prio := clampPrio i } :: assignPrios (i + 1) es

/-- `p3_reassign_rm_prios_locked` (p3_rsv.c lines 57-79): collect at most
`P3_MAX_RSV` entries in list order, sort them by ascending `T_ns` with
the double loop, and write `clampPrio rank` into each collected entry's
`prio` field in place.  In-place update through the array of pointers is
rendered by looking each store entry up (by pid) in the ranked result;
for stores with pairwise-distinct pids - an invariant the `EBUSY` check
maintains - this is exactly the pointer-based update. -/
def p3_reassign_rm_prios_locked (store : List Rsv) : List Rsv :=
  store.map (fun e =>
    match (assignPrios 0 (p3_sort (store.take P3_MAX_RSV))).find?
        (fun s => s.pid == e.pid) with
    | some s => { e with prio := s.prio }
    | none => e)

/-- `if (pid == 0) pid = current->pid;` (lines 128 and 197). -/
def resolve_pid (pid curPid : Int) : Int :=
  if pid = 0 then curPid else pid

/-- `sys_set_rsv` (p3_rsv.c lines 117-190).  Returns the syscall result
together with the store after the call; every failure path leaves the
store exactly as it was. -/
def set_rsv (env : Env) (pid₀ curPid : Int) (store : List Rsv) :
    SysRes × List Rsv :=
  match env.readC, env.readT with
  | none, _ => (.err .EFAULT, store)
  | some _, none => (.err .EFAULT, store)
  | some c_us, some t_us =>
    if c_us.tv_sec < 0 ∨ c_us.tv_nsec < 0 ∨ t_us.tv_sec < 0 ∨ t_us.tv_nsec < 0 then
      (.err .EINVAL, store)
    else if ktime_set c_us.tv_sec c_us.tv_nsec ≤ 0 ∨
        ktime_set t_us.tv_sec t_us.tv_nsec ≤ 0 then
      (.err .EINVAL, store)
    else if ktime_set t_us.tv_sec t_us.tv_nsec <
        ktime_set c_us.tv_sec c_us.tv_nsec then
      (.err .EINVAL, store)
    else if ¬ env.liveTask (resolve_pid pid₀ curPid) then (.err .ESRCH, store)
    else if (p3_find_locked (resolve_pid pid₀ curPid) store).isSome then
      (.err .EBUSY, store)
    else if P3_MAX_RSV ≤ store.length then (.err .ENOSPC, store)
    else if ¬ env.allocOk then (.err .ENOMEM, store)
    else
      (.ok, p3_reassign_rm_prios_locked (store ++
        [{ pid := resolve_pid pid₀ curPid,
           C_ns := ktime_set c_us.tv_sec c_us.tv_nsec,
           T_ns := ktime_set t_us.tv_sec t_us.tv_nsec,
           prio := 0, period_seq := 0, canceled := false, timerArmed := true }]))

/-- `list_del(&e->node)` for the entry found by `p3_find_locked`:
remove the first entry with the given pid. -/
def p3_remove_first (pid : Int) : List Rsv → List Rsv
  | [] => []
  | e :: es => if e.pid = pid then es else e :: p3_remove_first pid es

/-- `sys_cancel_rsv` (p3_rsv.c lines 192-216): look up, unlink,
`p3_free_entry` the removed entry (it leaves the store, its `canceled`
flag and timer teardown are modelled on `RState` below), then recompute
the remaining priorities. -/
def cancel_rsv (pid₀ curPid : Int) (store : List Rsv) : SysRes × List Rsv :=
  match p3_find_locked (resolve_pid pid₀ curPid) store with
  | none => (.err .ENOENT, store)
  | some _ =>
    (.ok, p3_reassign_rm_prios_locked
      (p3_remove_first (resolve_pid pid₀ curPid) store))

/-- `p3_sched_exit_cb` (p3_rsv.c lines 249-270): on task exit, unlink and
free the task's entry if it has one, then recompute priorities
(unconditionally, as the code does). -/
def p3_sched_exit_cb (pid : Int) (store : List Rsv) : List Rsv :=
  p3_reassign_rm_prios_locked
    (if (p3_find_locked pid store).isSome then p3_remove_first pid store else store)

/-- Dynamic (timer/wait-visible) state of one reservation: the live
`period_seq` value, the `canceled` flag, and whether the hrtimer is
armed. -/
structure RState where
  seq : Nat
  canceled : Bool
  armed : Bool
deriving DecidableEq, Repr

/-- `p3_timer_cb` (p3_rsv.c lines 82-93) acting on the dynamic state:
if `canceled`, nothing changes and the callback answers
`HRTIMER_NORESTART` (`false`); otherwise `period_seq` increments, the
waiters are woken, and it answers `HRTIMER_RESTART` (`true`). -/
def p3_timer_cb (r : RState) : RState × Bool :=
  if r.canceled then (r, false)
  else ({ r with seq := r.seq + 1 }, true)

/-- Events that can touch a reservation's dynamic state while its owner
is inside `wait_until_next_period`: a timer expiry, a teardown
(`p3_free_entry`: set `canceled`, `hrtimer_cancel`, `wake_up_all`), or a
signal delivered to the sleeping caller. -/
inductive Ev
  | timerFire
  | cancel
  | signal
deriving DecidableEq, Repr

/-- Effect of one event on the dynamic state.  A timer expiry goes
through `p3_timer_cb` when the timer is armed (the restart answer keeps
or clears `armed`); teardown sets `canceled` and disarms; a signal
changes nothing. -/
def stepEv (r : RState) : Ev → RState
  | .timerFire =>
    if r.armed then { (p3_timer_cb r).1 with armed := (p3_timer_cb r).2 } else r
  | .cancel => { r with canceled := true, armed := false }
  | .signal => r

/-- Whether an event wakes the tasks sleeping on the reservation's wait
queue: `p3_timer_cb` calls `wake_up_all` only on the non-canceled path
(and only if it actually fires, i.e. the timer is armed);
`p3_free_entry` always calls `wake_up_all`; a signal wakes the caller. -/
def wakesWaiters (r : RState) : Ev → Bool
  | .timerFire => r.armed && !r.canceled
  | .cancel => true
  | .signal => true

/-- The `wait_event_interruptible` condition of line 238:
`atomic64_read(&e->period_seq) != seen || READ_ONCE(e->canceled)`. -/
def waitCond (seen : Nat) (r : RState) : Bool :=
  decide (r.seq ≠ seen) || r.canceled

/-- The sleeping phase of `wait_until_next_period`: the caller is blocked
with snapshot `seen`; each event updates the state, and if it wakes the
caller, the condition is re-checked.  On a true condition the syscall
finishes through the `READ_ONCE(e->canceled)` check of line 241
(`-ENOENT` if canceled, else 0); a signal with a false condition gives
`-EINTR` (line 239).  `none` means the caller is still blocked after the
whole trace. -/
def waitBlocked (seen : Nat) : RState → List Ev → Option SysRes
  | _, [] => none
  | r, ev :: evs =>
    if wakesWaiters r ev then
      if waitCond seen (stepEv r ev) then
        (if (stepEv r ev).canceled then some (.err .ENOENT) else some .ok)
      else if ev = .signal then some (.err .EINTR)
      else waitBlocked seen (stepEv r ev) evs
    else waitBlocked seen (stepEv r ev) evs

/-- `wait_event_interruptible` (line 237) plus the post-wake check:
the condition is evaluated once before sleeping; if already true the
caller never blocks and goes straight to the canceled check. -/
def waitEvent (seen : Nat) (r : RState) (evs : List Ev) : Option SysRes :=
  if waitCond seen r then
    (if r.canceled then some (.err .ENOENT) else some .ok)
  else waitBlocked seen r evs

/-- `sys_wait_until_next_period` (p3_rsv.c lines 219-245).  `recheck` is
the `period_seq` value read at the second, lock-free read of line 234;
`evs` are the events that touch the reservation after that read.  The
syscall never writes the store, so the returned store is the input
store. -/
def wait_until_next_period (store : List Rsv) (curPid : Int) (recheck : Nat)
    (evs : List Ev) : Option SysRes × List Rsv :=
  match p3_find_locked curPid store with
  | none => (some (.err .ENOENT), store)
  | some e =>
    if recheck ≠ e.period_seq then (some .ok, store)
    else
      (waitEvent e.period_seq
        { seq := e.period_seq, canceled := e.canceled, armed := e.timerArmed } evs,
       store)

/-- One timer expiry at store level, for the reachability model: the
entry with the given pid (if armed) goes through `p3_timer_cb`. -/
def p3_tick (pid : Int) (store : List Rsv) : List Rsv :=
  store.map (fun e =>
    if e.pid = pid ∧ e.timerArmed then
      (if e.canceled then { e with timerArmed := false }
       else { e with period_seq := e.period_seq + 1 })
    else e)

/-- The operations that drive the store from its initial (empty) state. -/
inductive Op
  | reg (env : Env) (pid curPid : Int)
  | cancel (pid curPid : Int)
  | exitCb (pid : Int)
  | tick (pid : Int)

/-- Apply one operation to the store. -/
def applyOp (store : List Rsv) : Op → List Rsv
  | .reg env pid curPid => (set_rsv env pid curPid store).2
  | .cancel pid curPid => (cancel_rsv pid curPid store).2
  | .exitCb pid => p3_sched_exit_cb pid store
  | .tick pid => p3_tick pid store

/-- The store reached after a sequence of operations from the empty
initial store (`static LIST_HEAD(p3_rsv_list)`). -/
def runOps (ops : List Op) : List Rsv :=
  ops.foldl applyOp []

/-- Convenience environment: readable `C`/`T` arguments of the given
number of milliseconds, every pid resolvable, allocation succeeding. -/
def envFor (cms tms : Int) : Env :=
  { readC := some ⟨0, cms * 1000000⟩
    readT := some ⟨0, tms * 1000000⟩
    liveTask := fun _ => true
    allocOk := true }

/-! ### Helper lemmas: the double-loop sort -/

theorem p3_sort_inner_length (x : Rsv) (l : List Rsv) :
    (p3_sort_inner x l).2.length = l.length := by
  induction l generalizing x with
  | nil => rfl
  | cons y ys ih =>
    by_cases h : y.T_ns < x.T_ns <;>
      simp [p3_sort_inner, h, ih]

theorem p3_sort_inner_perm (x : Rsv) (l : List Rsv) :
    ((p3_sort_inner x l).1 :: (p3_sort_inner x l).2).Perm (x :: l) := by
  induction l generalizing x with
  | nil => exact List.Perm.refl _
  | cons y ys ih =>
    by_cases h : y.T_ns < x.T_ns
    · simp only [p3_sort_inner, if_pos h]
      exact (List.Perm.swap x _ _).trans ((ih y).cons x)
    · simp only [p3_sort_inner, if_neg h]
      exact (List.Perm.swap y _ _).trans (((ih x).cons y).trans (List.Perm.swap x y ys))

theorem p3_sort_inner_min (x : Rsv) (l : List Rsv) :
    (p3_sort_inner x l).1.T_ns ≤ x.T_ns ∧
      ∀ z ∈ l, (p3_sort_inner x l).1.T_ns ≤ z.T_ns := by
  induction l generalizing x with
  | nil => exact ⟨le_refl _, by simp⟩
  | cons y ys ih =>
    by_cases h : y.T_ns < x.T_ns
    · simp only [p3_sort_inner, if_pos h]
      obtain ⟨h1, h2⟩ := ih y
      refine ⟨le_trans h1 (le_of_lt h), ?_⟩
      intro z hz
      rcases List.mem_cons.mp hz with hz | hz
      · exact hz ▸ h1
      · exact h2 z hz
    · simp only [p3_sort_inner, if_neg h]
      obtain ⟨h1, h2⟩ := ih x
      refine ⟨h1, ?_⟩
      intro z hz
      rcases List.mem_cons.mp hz with hz | hz
      · exact hz ▸ le_trans h1 (le_of_not_lt h)
      · exact h2 z hz

theorem p3_sort_inner_min_all (x : Rsv) (l : List Rsv) :
    ∀ z ∈ (p3_sort_inner x l).2, (p3_sort_inner x l).1.T_ns ≤ z.T_ns := by
  intro z hz
  have hmem : z ∈ x :: l :=
    (p3_sort_inner_perm x l).mem_iff.mp (List.mem_cons_of_mem _ hz)
  rcases List.mem_cons.mp hmem with h | h
  · exact h ▸ (p3_sort_inner_min x l).1
  · exact (p3_sort_inner_min x l).2 z h

theorem p3_sort_run_perm :
    ∀ (fuel : Nat) (l : List Rsv), l.length ≤ fuel → (p3_sort_run fuel l).Perm l := by
  intro fuel
  induction fuel with
  | zero =>
    intro l hl
    have : l = [] := List.length_eq_zero.mp (Nat.le_zero.mp hl)
    subst this
    exact List.Perm.refl _
  | succ fuel ih =>
    intro l hl
    cases l with
    | nil => exact List.Perm.refl _
    | cons x xs =>
      have hlen : (p3_sort_inner x xs).2.length ≤ fuel := by
        rw [p3_sort_inner_length]
        simpa using hl
      exact ((ih _ hlen).cons _).trans (p3_sort_inner_perm x xs)

theorem p3_sort_run_sorted :
    ∀ (fuel : Nat) (l : List Rsv), l.length ≤ fuel →
      (p3_sort_run fuel l).Pairwise (fun a b => a.T_ns ≤ b.T_ns) := by
  intro fuel
  induction fuel with
  | zero =>
    intro l _
    cases l <;> exact List.Pairwise.nil
  | succ fuel ih =>
    intro l hl
    cases l with
    | nil => exact List.Pairwise.nil
    | cons x xs =>
      have hlen : (p3_sort_inner x xs).2.length ≤ fuel := by
        rw [p3_sort_inner_length]
        simpa using hl
      refine List.Pairwise.cons ?_ (ih _ hlen)
      intro z hz
      exact p3_sort_inner_min_all x xs z ((p3_sort_run_perm fuel _ hlen).mem_iff.mp hz)

theorem p3_sort_perm (l : List Rsv) : (p3_sort l).Perm l :=
  p3_sort_run_perm l.length l (le_refl _)

theorem p3_sort_sorted (l : List Rsv) :
    (p3_sort l).Pairwise (fun a b => a.T_ns ≤ b.T_ns) :=
  p3_sort_run_sorted l.length l (le_refl _)

/-! ### Helper lemmas: priority assignment -/

theorem clampPrio_pos (i : Nat) : 1 ≤ clampPrio i := by
  unfold clampPrio MAX_RT_PRIORITY
  split <;> omega

theorem clampPrio_succ_le (k : Nat) : clampPrio (k + 1) ≤ clampPrio k := by
  unfold clampPrio MAX_RT_PRIORITY
  split <;> split <;> omega

theorem clampPrio_strict (i j : Nat) (hij : i < j) (hj : (j : Int) ≤ MAX_RT_PRIORITY - 2) :
    clampPrio j < clampPrio i := by
  unfold clampPrio MAX_RT_PRIORITY at *
  split <;> split <;> omega

theorem assignPrios_length (k : Nat) (l : List Rsv) :
    (assignPrios k l).length = l.length := by
  induction l generalizing k with
  | nil => rfl
  | cons e es ih => simp [assignPrios, ih]

theorem assignPrios_getElem? (l : List Rsv) :
    ∀ (k i : Nat),
      (assignPrios k l)[i]? = (l[i]?).map (fun e => { e with prio := clampPrio (k + i) }) := by
  induction l with
  | nil => intro k i; simp [assignPrios]
  | cons e es ih =>
    intro k i
    cases i with
    | zero => simp [assignPrios]
    | succ i =>
      simp only [assignPrios, List.getElem?_cons_succ]
      rw [ih (k + 1) i]
      have : k + 1 + i = k + (i + 1) := by omega
      rw [this]

theorem assignPrios_mem {e' : Rsv} :
    ∀ (k : Nat) (l : List Rsv), e' ∈ assignPrios k l →
      ∃ e ∈ l, e' = { e with prio := e'.prio } := by
  intro k l
  induction l generalizing k with
  | nil => intro h; simp [assignPrios] at h
  | cons e es ih =>
    intro h
    rcases List.mem_cons.mp h with h | h
    · exact ⟨e, List.mem_cons_self e es, by rw [h]⟩
    · obtain ⟨e₀, he₀, heq⟩ := ih (k + 1) h
      exact ⟨e₀, List.mem_cons_of_mem _ he₀, heq⟩

theorem assignPrios_mem_rev {e : Rsv} :
    ∀ (k : Nat) (l : List Rsv), e ∈ l →
      ∃ e' ∈ assignPrios k l, e' = { e with prio := e'.prio } := by
  intro k l
  induction l generalizing k with
  | nil => intro h; simp at h
  | cons x xs ih =>
    intro h
    rcases List.mem_cons.mp h with h | h
    · exact ⟨{ x with prio := clampPrio k }, List.mem_cons_self _ _, by rw [h]⟩
    · obtain ⟨e', he', heq⟩ := ih (k + 1) h
      exact ⟨e', List.mem_cons_of_mem _ he', heq⟩

theorem assignPrios_prio_le {e' : Rsv} :
    ∀ (k : Nat) (l : List Rsv), e' ∈ assignPrios k l → e'.prio ≤ clampPrio k := by
  intro k l
  induction l generalizing k with
  | nil => intro h; simp [assignPrios] at h
  | cons e es ih =>
    intro h
    rcases List.mem_cons.mp h with h | h
    · rw [h]
    · exact le_trans (ih (k + 1) h) (clampPrio_succ_le k)

theorem assignPrios_prio_pos {e' : Rsv} :
    ∀ (k : Nat) (l : List Rsv), e' ∈ assignPrios k l → 1 ≤ e'.prio := by
  intro k l
  induction l generalizing k with
  | nil => intro h; simp [assignPrios] at h
  | cons e es ih =>
    intro h
    rcases List.mem_cons.mp h with h | h
    · rw [h]; exact clampPrio_pos k
    · exact ih (k + 1) h

theorem assignPrios_map_pid (k : Nat) (l : List Rsv) :
    (assignPrios k l).map Rsv.pid = l.map Rsv.pid := by
  induction l generalizing k with
  | nil => rfl
  | cons e es ih => simp [assignPrios, ih]

theorem assignPrios_pairwise :
    ∀ (k : Nat) (l : List Rsv),
      l.Pairwise (fun a b => a.T_ns ≤ b.T_ns) →
      (k : Int) + l.length ≤ MAX_RT_PRIORITY - 1 →
      (assignPrios k l).Pairwise (fun a b => a.T_ns ≤ b.T_ns ∧ b.prio < a.prio) := by
  intro k l
  induction l generalizing k with
  | nil => intro _ _; exact List.Pairwise.nil
  | cons e es ih =>
    intro hs hk
    refine List.Pairwise.cons ?_
      (ih (k + 1) (List.Pairwise.of_cons hs) (by push_cast [List.length_cons] at hk ⊢; omega))
    intro b hb
    obtain ⟨e₀, he₀, heq⟩ := assignPrios_mem (k + 1) es hb
    constructor
    · have hT : e.T_ns ≤ e₀.T_ns := (List.pairwise_cons.mp hs).1 e₀ he₀
      calc ({ e with prio := clampPrio k } : Rsv).T_ns = e.T_ns := rfl
        _ ≤ e₀.T_ns := hT
        _ = b.T_ns := by rw [heq]
    · have h1 : b.prio ≤ clampPrio (k + 1) := assignPrios_prio_le (k + 1) es hb
      have hes : 1 ≤ es.length := List.length_pos.mpr (List.ne_nil_of_mem he₀)
      have h2 : clampPrio (k + 1) < clampPrio k := by
        refine clampPrio_strict k (k + 1) (Nat.lt_succ_self k) ?_
        have hes' : (1 : Int) ≤ (es.length : Int) := by exact_mod_cast hes
        push_cast [List.length_cons] at hk ⊢
        omega
      calc b.prio ≤ clampPrio (k + 1) := h1
        _ < clampPrio k := h2

/-! ### Helper lemmas: lookup, removal, recompute -/

theorem p3_find_locked_mem {pid : Int} {e : Rsv} :
    ∀ l : List Rsv, p3_find_locked pid l = some e → e ∈ l ∧ e.pid = pid := by
  intro l
  induction l with
  | nil => intro h; simp [p3_find_locked] at h
  | cons x xs ih =>
    intro h
    by_cases hx : x.pid = pid
    · simp only [p3_find_locked, if_pos hx, Option.some.injEq] at h
      exact ⟨h ▸ List.mem_cons_self _ _, h ▸ hx⟩
    · simp only [p3_find_locked, if_neg hx] at h
      obtain ⟨hmem, hp⟩ := ih h
      exact ⟨List.mem_cons_of_mem _ hmem, hp⟩

theorem p3_find_locked_eq_none {pid : Int} :
    ∀ l : List Rsv, (∀ e ∈ l, e.pid ≠ pid) → p3_find_locked pid l = none := by
  intro l
  induction l with
  | nil => intro _; rfl
  | cons x xs ih =>
    intro h
    have hx : x.pid ≠ pid := h x (List.mem_cons_self _ _)
    simp only [p3_find_locked, if_neg hx]
    exact ih (fun e he => h e (List.mem_cons_of_mem _ he))

theorem p3_find_locked_none_forall {pid : Int} :
    ∀ l : List Rsv, p3_find_locked pid l = none → ∀ e ∈ l, e.pid ≠ pid := by
  intro l
  induction l with
  | nil => intro _ e he; simp at he
  | cons x xs ih =>
    intro h e he
    by_cases hx : x.pid = pid
    · simp [p3_find_locked, if_pos hx] at h
    · simp only [p3_find_locked, if_neg hx] at h
      rcases List.mem_cons.mp he with he | he
      · exact he ▸ hx
      · exact ih h e he

theorem p3_find_locked_map {pid : Int} (f : Rsv → Rsv) (hf : ∀ e, (f e).pid = e.pid) :
    ∀ l : List Rsv, p3_find_locked pid (l.map f) = (p3_find_locked pid l).map f := by
  intro l
  induction l with
  | nil => rfl
  | cons x xs ih =>
    by_cases hx : x.pid = pid
    · simp only [List.map_cons, p3_find_locked, hf x, if_pos hx, Option.map_some']
    · simp only [List.map_cons, p3_find_locked, hf x, if_neg hx, ih]

theorem p3_find_locked_append {pid : Int} {l₁ l₂ : List Rsv}
    (h : p3_find_locked pid l₁ = none) :
    p3_find_locked pid (l₁ ++ l₂) = p3_find_locked pid l₂ := by
  induction l₁ with
  | nil => rfl
  | cons x xs ih =>
    by_cases hx : x.pid = pid
    · simp [p3_find_locked, if_pos hx] at h
    · simp only [p3_find_locked, if_neg hx] at h
      simp only [List.cons_append, p3_find_locked, if_neg hx]
      exact ih h

theorem p3_remove_first_length_le {pid : Int} :
    ∀ l : List Rsv, (p3_remove_first pid l).length ≤ l.length := by
  intro l
  induction l with
  | nil => exact le_refl _
  | cons x xs ih =>
    by_cases hx : x.pid = pid
    · simp only [p3_remove_first, if_pos hx, List.length_cons]
      omega
    · simp only [p3_remove_first, if_neg hx, List.length_cons]
      omega

theorem p3_remove_first_find_none {pid : Int} :
    ∀ l : List Rsv, l.Pairwise (fun a b => a.pid ≠ b.pid) →
      p3_find_locked pid (p3_remove_first pid l) = none := by
  intro l
  induction l with
  | nil => intro _; rfl
  | cons x xs ih =>
    intro hp
    by_cases hx : x.pid = pid
    · simp only [p3_remove_first, if_pos hx]
      refine p3_find_locked_eq_none xs ?_
      intro e he
      have := (List.pairwise_cons.mp hp).1 e he
      rw [hx] at this
      exact fun h => this h.symm
    · simp only [p3_remove_first, if_neg hx, p3_find_locked, if_neg hx]
      exact ih (List.Pairwise.of_cons hp)

theorem p3_reassign_length (s : List Rsv) :
    (p3_reassign_rm_prios_locked s).length = s.length := by
  simp [p3_reassign_rm_prios_locked]

theorem p3_reassign_find (s : List Rsv) (pid : Int) :
    p3_find_locked pid (p3_reassign_rm_prios_locked s) =
      (p3_find_locked pid s).map (fun e =>
        match (assignPrios 0 (p3_sort (s.take P3_MAX_RSV))).find?
            (fun x => x.pid == e.pid) with
        | some x => { e with prio := x.prio }
        | none => e) := by
  apply p3_find_locked_map
  intro e
  split <;> rfl

theorem p3_reassign_find_fields {s : List Rsv} {pid : Int} {e : Rsv}
    (h : p3_find_locked pid s = some e) :
    ∃ e', p3_find_locked pid (p3_reassign_rm_prios_locked s) = some e' ∧
      e'.pid = e.pid ∧ e'.C_ns = e.C_ns ∧ e'.T_ns = e.T_ns ∧
      e'.period_seq = e.period_seq ∧ e'.canceled = e.canceled ∧
      e'.timerArmed = e.timerArmed := by
  rw [p3_reassign_find, h, Option.map_some']
  split <;> exact ⟨_, rfl, rfl, rfl, rfl, rfl, rfl, rfl⟩

theorem set_rsv_shape (env : Env) (pid₀ curPid : Int) (s : List Rsv) :
    (set_rsv env pid₀ curPid s).2 = s ∨
      (s.length < P3_MAX_RSV ∧ ∃ e : Rsv,
        (set_rsv env pid₀ curPid s).2 = p3_reassign_rm_prios_locked (s ++ [e])) := by
  unfold set_rsv
  split
  · left; rfl
  · left; rfl
  · split
    · left; rfl
    · split
      · left; rfl
      · split
        · left; rfl
        · split
          · left; rfl
          · split
            · left; rfl
            · split
              · left; rfl
              · split
                · left; rfl
                · rename_i hcap _
                  right
                  exact ⟨Nat.lt_of_not_le hcap, _, rfl⟩

theorem p3_tick_length (pid : Int) (s : List Rsv) : (p3_tick pid s).length = s.length := by
  simp [p3_tick]

/-! ### Helper lemmas: the wait/notify protocol -/

theorem stepEv_canceled_of_ne {r : RState} {ev : Ev}
    (hr : r.canceled = false) (hev : ev ≠ Ev.cancel) :
    (stepEv r ev).canceled = false := by
  cases ev with
  | timerFire =>
    simp only [stepEv, p3_timer_cb, hr, Bool.false_eq_true, if_false]
    split <;> simp [hr]
  | cancel => exact absurd rfl hev
  | signal => simpa [stepEv] using hr

theorem waitBlocked_cancel_head (seen : Nat) (r : RState) (evs : List Ev) :
    waitBlocked seen r (Ev.cancel :: evs) = some (.err .ENOENT) := by
  simp [waitBlocked, wakesWaiters, waitCond, stepEv]

theorem waitEvent_canceled {seen : Nat} {r : RState} (evs : List Ev)
    (h : r.canceled = true) :
    waitEvent seen r evs = some (.err .ENOENT) := by
  simp [waitEvent, waitCond, h]

theorem waitBlocked_timerFire_head {seen : Nat} {r : RState} (evs : List Ev)
    (hseq : r.seq = seen) (hc : r.canceled = false) (ha : r.armed = true) :
    waitBlocked seen r (Ev.timerFire :: evs) = some .ok := by
  simp [waitBlocked, wakesWaiters, stepEv, p3_timer_cb, waitCond, hseq, hc, ha]

theorem waitBlocked_head_isSome {seen : Nat} {r : RState} (ev : Ev) (evs : List Ev)
    (hseq : r.seq = seen) (hc : r.canceled = false) (ha : r.armed = true) :
    (waitBlocked seen r (ev :: evs)).isSome = true := by
  cases ev with
  | timerFire => rw [waitBlocked_timerFire_head evs hseq hc ha]; rfl
  | cancel => rw [waitBlocked_cancel_head]; rfl
  | signal => simp [waitBlocked, wakesWaiters, stepEv, waitCond, hseq, hc]

theorem waitBlocked_enoent_cancel_mem (seen : Nat) :
    ∀ (evs : List Ev) (r : RState), r.canceled = false →
      waitBlocked seen r evs = some (.err .ENOENT) → Ev.cancel ∈ evs := by
  intro evs
  induction evs with
  | nil => intro r _ h; simp [waitBlocked] at h
  | cons ev evs ih =>
    intro r hr h
    cases hev : ev with
    | cancel => exact List.mem_cons_self _ _
    | timerFire =>
      subst hev
      have hc : (stepEv r Ev.timerFire).canceled = false :=
        stepEv_canceled_of_ne hr (by intro h; cases h)
      rw [waitBlocked] at h
      split at h
      · split at h
        · rw [if_neg (by simp [hc])] at h
          exact absurd h (by simp)
        · split at h
          · exact absurd h (by simp)
          · exact List.mem_cons_of_mem _ (ih _ hc h)
      · exact List.mem_cons_of_mem _ (ih _ hc h)
    | signal =>
      subst hev
      have hc : (stepEv r Ev.signal).canceled = false :=
        stepEv_canceled_of_ne hr (by intro h; cases h)
      rw [waitBlocked] at h
      split at h
      · split at h
        · rw [if_neg (by simp [hc])] at h
          exact absurd h (by simp)
        · split at h
          · exact absurd h (by simp)
          · exact List.mem_cons_of_mem _ (ih _ hc h)
      · exact List.mem_cons_of_mem _ (ih _ hc h)

theorem waitBlocked_res (seen : Nat) :
    ∀ (evs : List Ev) (r : RState) (res : SysRes),
      waitBlocked seen r evs = some res →
      res = .ok ∨ res = .err .ENOENT ∨ res = .err .EINTR := by
  intro evs
  induction evs with
  | nil => intro r res h; simp [waitBlocked] at h
  | cons ev evs ih =>
    intro r res h
    rw [waitBlocked] at h
    split at h
    · split at h
      · split at h
        · exact Or.inr (Or.inl (by injection h with h; exact h.symm))
        · exact Or.inl (by injection h with h; exact h.symm)
      · split at h
        · exact Or.inr (Or.inr (by injection h with h; exact h.symm))
        · exact ih _ _ h
    · exact ih _ _ h

theorem waitEvent_res {seen : Nat} {r : RState} {evs : List Ev} {res : SysRes}
    (h : waitEvent seen r evs = some res) :
    res = .ok ∨ res = .err .ENOENT ∨ res = .err .EINTR := by
  rw [waitEvent] at h
  split at h
  · split at h
    · exact Or.inr (Or.inl (by injection h with h; exact h.symm))
    · exact Or.inl (by injection h with h; exact h.symm)
  · exact waitBlocked_res seen evs r res h

/-- Sample reservation used to instantiate theorems with hypotheses. -/
def sampleRsv : Rsv :=
  { pid := 7, C_ns := 2000000, T_ns := 10000000, prio := 99,
    period_seq := 3, canceled := false, timerArmed := true }

/-- C2: for a caller with an active reservation, with `s0` the
`period_seq` value read during lookup: (1) if the lock-free re-check of
line 234 sees a value past `s0`, the call returns success immediately
(no event of the blocking phase is consumed); (2) a period boundary
(timer firing) that occurs while the caller is blocked in the clean
waiting state (sequence still at `s0`, not cancelled, timer armed) wakes
it immediately with success; (3) more generally, any trace containing a
timer firing completes the wait - no wakeup is missed. -/
theorem c2_wait_no_missed_wakeup (store : List Rsv) (curPid : Int) (e : Rsv)
    (recheck : Nat) (evs evs₂ : List Ev) (r : RState)
    (hfind : p3_find_locked curPid store = some e) :
    (e.period_seq < recheck →
      wait_until_next_period store curPid recheck evs = (some .ok, store))
    ∧ (r.seq = e.period_seq → r.canceled = false → r.armed = true →
        waitBlocked e.period_seq r (Ev.timerFire :: evs) = some .ok)
    ∧ (r.seq = e.period_seq → r.canceled = false → r.armed = true →
        Ev.timerFire ∈ evs₂ → (waitBlocked e.period_seq r evs₂).isSome = true) := by
  refine ⟨?_, ?_, ?_⟩
  · intro h
    simp [wait_until_next_period, hfind, ne_of_gt h]
  · intro hseq hc ha
    exact waitBlocked_timerFire_head evs hseq hc ha
  · intro hseq hc ha hmem
    cases evs₂ with
    | nil => simp at hmem
    | cons ev rest => exact waitBlocked_head_isSome ev rest hseq hc ha

/-- Witness for C2 at a concrete store, reservation and event traces. -/
theorem c2_wait_no_missed_wakeup_witness :
    wait_until_next_period [sampleRsv] 7 4 [] = (some .ok, [sampleRsv])
    ∧ waitBlocked 3 ⟨3, false, true⟩ [Ev.timerFire] = some .ok
    ∧ (waitBlocked 3 ⟨3, false, true⟩ [Ev.signal, Ev.timerFire]).isSome = true := by
  have h := c2_wait_no_missed_wakeup [sampleRsv] 7 sampleRsv 4 []
    [Ev.signal, Ev.timerFire] ⟨3, false, true⟩ (by decide)
  exact ⟨h.1 (by decide), h.2.1 rfl rfl rfl, h.2.2 rfl rfl rfl (by decide)⟩

/-- C3: once a reservation's `canceled` flag is set, (1) every firing of
`p3_timer_cb` leaves `period_seq` unchanged and answers
`HRTIMER_NORESTART` (the timer is terminal); (2) every
`wait_event_interruptible` phase entered with the flag set fails
`-ENOENT` regardless of later events; (3) a teardown event while blocked
wakes the waiter and it fails `-ENOENT` - no wait may succeed past
cancellation. -/
theorem c3_cancelled_terminal :
    (∀ r : RState, r.canceled = true → p3_timer_cb r = (r, false))
    ∧ (∀ (seen : Nat) (r : RState) (evs : List Ev), r.canceled = true →
        waitEvent seen r evs = some (.err .ENOENT))
    ∧ (∀ (seen : Nat) (r : RState) (evs : List Ev),
        waitBlocked seen r (Ev.cancel :: evs) = some (.err .ENOENT)) := by
  refine ⟨?_, ?_, ?_⟩
  · intro r h
    simp [p3_timer_cb, h]
  · intro seen r evs h
    exact waitEvent_canceled evs h
  · intro seen r evs
    exact waitBlocked_cancel_head seen r evs

/-- Witness for C3 at a concrete cancelled state. -/
theorem c3_cancelled_terminal_witness :
    p3_timer_cb ⟨5, true, true⟩ = (⟨5, true, true⟩, false)
    ∧ waitEvent 5 ⟨5, true, false⟩ [Ev.timerFire] = some (.err .ENOENT)
    ∧ waitBlocked 5 ⟨5, false, true⟩ [Ev.cancel] = some (.err .ENOENT) :=
  ⟨c3_cancelled_terminal.1 _ rfl,
   c3_cancelled_terminal.2.1 5 _ [Ev.timerFire] rfl,
   c3_cancelled_terminal.2.2 5 ⟨5, false, true⟩ []⟩

/-- C7: `wait_until_next_period` fails `-ENOENT` in exactly two
situations: (1) the caller has no reservation at lookup time (and the
store is untouched); (2) the wait observed a cancellation - for a
reservation not yet cancelled at lookup, an `-ENOENT` completion implies
a teardown event occurred in the trace.  (3) the syscall never writes
the store, and (4) every completion is 0, `-ENOENT` or `-EINTR`. -/
theorem c7_wait_notfound_cases (store : List Rsv) (curPid : Int) (recheck : Nat)
    (evs : List Ev) :
    (p3_find_locked curPid store = none →
      wait_until_next_period store curPid recheck evs = (some (.err .ENOENT), store))
    ∧ (∀ e, p3_find_locked curPid store = some e → e.canceled = false →
        (wait_until_next_period store curPid recheck evs).1 = some (.err .ENOENT) →
        Ev.cancel ∈ evs)
    ∧ (wait_until_next_period store curPid recheck evs).2 = store
    ∧ (∀ res, (wait_until_next_period store curPid recheck evs).1 = some res →
        res = .ok ∨ res = .err .ENOENT ∨ res = .err .EINTR) := by
  refine ⟨?_, ?_, ?_, ?_⟩
  · intro h
    simp [wait_until_next_period, h]
  · intro e hfind hc h
    simp only [wait_until_next_period, hfind] at h
    by_cases hrc : recheck ≠ e.period_seq
    · rw [if_pos hrc] at h
      exact absurd h (by simp)
    · rw [if_neg hrc] at h
      rw [waitEvent] at h
      rw [if_neg (by simp [waitCond, hc])] at h
      exact waitBlocked_enoent_cancel_mem e.period_seq evs _ hc h
  · cases hfind : p3_find_locked curPid store with
    | none => simp only [wait_until_next_period, hfind]
    | some e =>
      simp only [wait_until_next_period, hfind]
      by_cases hrc : recheck ≠ e.period_seq
      · rw [if_pos hrc]
      · rw [if_neg hrc]
  · intro res h
    cases hfind : p3_find_locked curPid store with
    | none =>
      simp only [wait_until_next_period, hfind] at h
      exact Or.inr (Or.inl (by injection h with h; exact h.symm))
    | some e =>
      simp only [wait_until_next_period, hfind] at h
      by_cases hrc : recheck ≠ e.period_seq
      · rw [if_pos hrc] at h
        exact Or.inl (by injection h with h; exact h.symm)
      · rw [if_neg hrc] at h
        exact waitEvent_res h

/-- Witness for C7 at concrete stores and traces. -/
theorem c7_wait_notfound_cases_witness :
    wait_until_next_period [] 5 0 [] = (some (.err .ENOENT), [])
    ∧ Ev.cancel ∈ [Ev.cancel] := by
  refine ⟨(c7_wait_notfound_cases [] 5 0 []).1 rfl, ?_⟩
  exact (c7_wait_notfound_cases [sampleRsv] 7 3 [Ev.cancel]).2.1 sampleRsv
    (by decide) rfl (by decide)

/-! ### Helper lemmas: the error paths of set_rsv -/

theorem set_rsv_efault {env : Env} (pid₀ curPid : Int) (store : List Rsv)
    (h : env.readC = none ∨ env.readT = none) :
    set_rsv env pid₀ curPid store = (.err .EFAULT, store) := by
  rcases h with h | h
  · simp [set_rsv, h]
  · cases hC : env.readC with
    | none => simp [set_rsv, hC]
    | some c => simp [set_rsv, hC, h]

theorem set_rsv_einval {env : Env} {c t : Timespec} (pid₀ curPid : Int)
    (store : List Rsv) (hc : env.readC = some c) (ht : env.readT = some t)
    (h : c.tv_sec < 0 ∨ c.tv_nsec < 0 ∨ t.tv_sec < 0 ∨ t.tv_nsec < 0 ∨
      ktime_set c.tv_sec c.tv_nsec ≤ 0 ∨ ktime_set t.tv_sec t.tv_nsec ≤ 0 ∨
      ktime_set t.tv_sec t.tv_nsec < ktime_set c.tv_sec c.tv_nsec) :
    set_rsv env pid₀ curPid store = (.err .EINVAL, store) := by
  simp only [set_rsv, hc, ht]
  by_cases h1 : c.tv_sec < 0 ∨ c.tv_nsec < 0 ∨ t.tv_sec < 0 ∨ t.tv_nsec < 0
  · rw [if_pos h1]
  · rw [if_neg h1]
    by_cases h2 : ktime_set c.tv_sec c.tv_nsec ≤ 0 ∨ ktime_set t.tv_sec t.tv_nsec ≤ 0
    · rw [if_pos h2]
    · rw [if_neg h2]
      have h3 : ktime_set t.tv_sec t.tv_nsec < ktime_set c.tv_sec c.tv_nsec := by
        tauto
      rw [if_pos h3]

theorem set_rsv_esrch {env : Env} {c t : Timespec} (pid₀ curPid : Int)
    (store : List Rsv) (hc : env.readC = some c) (ht : env.readT = some t)
    (h1 : ¬(c.tv_sec < 0 ∨ c.tv_nsec < 0 ∨ t.tv_sec < 0 ∨ t.tv_nsec < 0))
    (h2 : ¬(ktime_set c.tv_sec c.tv_nsec ≤ 0 ∨ ktime_set t.tv_sec t.tv_nsec ≤ 0))
    (h3 : ¬ktime_set t.tv_sec t.tv_nsec < ktime_set c.tv_sec c.tv_nsec)
    (hlive : env.liveTask (resolve_pid pid₀ curPid) = false) :
    set_rsv env pid₀ curPid store = (.err .ESRCH, store) := by
  simp only [set_rsv, hc, ht, if_neg h1, if_neg h2, if_neg h3]
  rw [if_pos (by simp [hlive])]

theorem set_rsv_ebusy {env : Env} {c t : Timespec} {e : Rsv} (pid₀ curPid : Int)
    (store : List Rsv) (hc : env.readC = some c) (ht : env.readT = some t)
    (h1 : ¬(c.tv_sec < 0 ∨ c.tv_nsec < 0 ∨ t.tv_sec < 0 ∨ t.tv_nsec < 0))
    (h2 : ¬(ktime_set c.tv_sec c.tv_nsec ≤ 0 ∨ ktime_set t.tv_sec t.tv_nsec ≤ 0))
    (h3 : ¬ktime_set t.tv_sec t.tv_nsec < ktime_set c.tv_sec c.tv_nsec)
    (hlive : env.liveTask (resolve_pid pid₀ curPid) = true)
    (hdup : p3_find_locked (resolve_pid pid₀ curPid) store = some e) :
    set_rsv env pid₀ curPid store = (.err .EBUSY, store) := by
  simp only [set_rsv, hc, ht, if_neg h1, if_neg h2, if_neg h3]
  rw [if_neg (by simp [hlive]), if_pos (by simp [hdup])]

theorem set_rsv_enospc {env : Env} {c t : Timespec} (pid₀ curPid : Int)
    (store : List Rsv) (hc : env.readC = some c) (ht : env.readT = some t)
    (h1 : ¬(c.tv_sec < 0 ∨ c.tv_nsec < 0 ∨ t.tv_sec < 0 ∨ t.tv_nsec < 0))
    (h2 : ¬(ktime_set c.tv_sec c.tv_nsec ≤ 0 ∨ ktime_set t.tv_sec t.tv_nsec ≤ 0))
    (h3 : ¬ktime_set t.tv_sec t.tv_nsec < ktime_set c.tv_sec c.tv_nsec)
    (hlive : env.liveTask (resolve_pid pid₀ curPid) = true)
    (hfind : p3_find_locked (resolve_pid pid₀ curPid) store = none)
    (hcap : P3_MAX_RSV ≤ store.length) :
    set_rsv env pid₀ curPid store = (.err .ENOSPC, store) := by
  simp only [set_rsv, hc, ht, if_neg h1, if_neg h2, if_neg h3]
  rw [if_neg (by simp [hlive]), if_neg (by simp [hfind]), if_pos hcap]

theorem set_rsv_enomem {env : Env} {c t : Timespec} (pid₀ curPid : Int)
    (store : List Rsv) (hc : env.readC = some c) (ht : env.readT = some t)
    (h1 : ¬(c.tv_sec < 0 ∨ c.tv_nsec < 0 ∨ t.tv_sec < 0 ∨ t.tv_nsec < 0))
    (h2 : ¬(ktime_set c.tv_sec c.tv_nsec ≤ 0 ∨ ktime_set t.tv_sec t.tv_nsec ≤ 0))
    (h3 : ¬ktime_set t.tv_sec t.tv_nsec < ktime_set c.tv_sec c.tv_nsec)
    (hlive : env.liveTask (resolve_pid pid₀ curPid) = true)
    (hfind : p3_find_locked (resolve_pid pid₀ curPid) store = none)
    (hcap : store.length < P3_MAX_RSV)
    (halloc : env.allocOk = false) :
    set_rsv env pid₀ curPid store = (.err .ENOMEM, store) := by
  simp only [set_rsv, hc, ht, if_neg h1, if_neg h2, if_neg h3]
  rw [if_neg (by simp [hlive]), if_neg (by simp [hfind]),
    if_neg (not_le.mpr hcap), if_pos (by simp [halloc])]

theorem set_rsv_success {env : Env} {c t : Timespec} (pid₀ curPid : Int)
    (store : List Rsv) (hc : env.readC = some c) (ht : env.readT = some t)
    (h1 : ¬(c.tv_sec < 0 ∨ c.tv_nsec < 0 ∨ t.tv_sec < 0 ∨ t.tv_nsec < 0))
    (h2 : ¬(ktime_set c.tv_sec c.tv_nsec ≤ 0 ∨ ktime_set t.tv_sec t.tv_nsec ≤ 0))
    (h3 : ¬ktime_set t.tv_sec t.tv_nsec < ktime_set c.tv_sec c.tv_nsec)
    (hlive : env.liveTask (resolve_pid pid₀ curPid) = true)
    (hfind : p3_find_locked (resolve_pid pid₀ curPid) store = none)
    (hcap : store.length < P3_MAX_RSV)
    (halloc : env.allocOk = true) :
    set_rsv env pid₀ curPid store = (.ok, p3_reassign_rm_prios_locked (store ++
      [{ pid := resolve_pid pid₀ curPid,
         C_ns := ktime_set c.tv_sec c.tv_nsec,
         T_ns := ktime_set t.tv_sec t.tv_nsec,
         prio := 0, period_seq := 0, canceled := false, timerArmed := true }])) := by
  simp only [set_rsv, hc, ht, if_neg h1, if_neg h2, if_neg h3]
  rw [if_neg (by simp [hlive]), if_neg (by simp [hfind]),
    if_neg (not_le.mpr hcap), if_neg (by simp [halloc])]

/-! ### Helper lemmas: store size under every operation -/

theorem applyOp_length_le (op : Op) (s : List Rsv) (h : s.length ≤ P3_MAX_RSV) :
    (applyOp s op).length ≤ P3_MAX_RSV := by
  cases op with
  | reg env pid curPid =>
    rcases set_rsv_shape env pid curPid s with h1 | ⟨h1, e, h2⟩
    · simpa [applyOp, h1] using h
    · simp only [applyOp, h2, p3_reassign_length, List.length_append,
        List.length_cons, List.length_nil]
      omega
  | cancel pid curPid =>
    cases hf : p3_find_locked (resolve_pid pid curPid) s with
    | none => simpa [applyOp, cancel_rsv, hf] using h
    | some e =>
      simp only [applyOp, cancel_rsv, hf, p3_reassign_length]
      exact le_trans (p3_remove_first_length_le s) h
  | exitCb pid =>
    simp only [applyOp, p3_sched_exit_cb, p3_reassign_length]
    split
    · exact le_trans (p3_remove_first_length_le s) h
    · exact h
  | tick pid =>
    simpa [applyOp, p3_tick_length] using h

theorem runOps_length_le (ops : List Op) : (runOps ops).length ≤ P3_MAX_RSV := by
  have key : ∀ (ops : List Op) (s : List Rsv), s.length ≤ P3_MAX_RSV →
      (ops.foldl applyOp s).length ≤ P3_MAX_RSV := by
    intro ops
    induction ops with
    | nil => intro s h; simpa using h
    | cons op ops ih => intro s h; exact ih _ (applyOp_length_le op s h)
  exact key ops [] (by simp [P3_MAX_RSV])

/-- A store holding exactly `P3_MAX_RSV` reservations, for witnesses. -/
def fullStore : List Rsv :=
  (List.range P3_MAX_RSV).map (fun k =>
    { pid := (k : Int) + 1, C_ns := 1000000, T_ns := ((k : Int) + 1) * 1000000,
      prio := 0, period_seq := 0, canceled := false, timerArmed := true })

/-- C4: (1) every store reachable from the empty initial store by any
sequence of register / cancel / exit-cleanup / timer-expiry operations
holds at most `P3_MAX_RSV` (50) entries; (2) a register call made when 50
reservations are active (passing the checks that precede the capacity
test) fails `-ENOSPC` and returns the store exactly as it was - every
existing reservation's C, T, priority, sequence and timer state are
unchanged. -/
theorem c4_capacity_invariant (ops : List Op) (env : Env) (pid₀ curPid : Int)
    (store : List Rsv) (c t : Timespec) :
    (runOps ops).length ≤ P3_MAX_RSV
    ∧ (env.readC = some c → env.readT = some t →
        ¬(c.tv_sec < 0 ∨ c.tv_nsec < 0 ∨ t.tv_sec < 0 ∨ t.tv_nsec < 0) →
        ¬(ktime_set c.tv_sec c.tv_nsec ≤ 0 ∨ ktime_set t.tv_sec t.tv_nsec ≤ 0) →
        ¬ktime_set t.tv_sec t.tv_nsec < ktime_set c.tv_sec c.tv_nsec →
        env.liveTask (resolve_pid pid₀ curPid) = true →
        p3_find_locked (resolve_pid pid₀ curPid) store = none →
        store.length = P3_MAX_RSV →
        set_rsv env pid₀ curPid store = (.err .ENOSPC, store)) := by
  refine ⟨runOps_length_le ops, ?_⟩
  intro hc ht h1 h2 h3 hlive hfind hlen
  exact set_rsv_enospc pid₀ curPid store hc ht h1 h2 h3 hlive hfind (le_of_eq hlen.symm)

/-- Witness for C4 at a concrete 50-entry store. -/
theorem c4_capacity_invariant_witness :
    fullStore.length = P3_MAX_RSV
    ∧ set_rsv (envFor 1 5) 1000 999 fullStore = (.err .ENOSPC, fullStore) := by
  refine ⟨by decide, ?_⟩
  exact (c4_capacity_invariant [] (envFor 1 5) 1000 999 fullStore
      ⟨0, 1000000⟩ ⟨0, 5000000⟩).2
    (by decide) (by decide) (by decide) (by decide) (by decide) (by decide)
    (by decide) (by decide)

/-- C5: a register call whose readable arguments have a non-positive C
duration, a non-positive T duration, or C > T, fails `-EINVAL` and the
store is returned unchanged (no entry inserted, no timer armed, no
recompute). -/
theorem c5_invalid_arguments (env : Env) (pid₀ curPid : Int) (store : List Rsv)
    (c t : Timespec) (hc : env.readC = some c) (ht : env.readT = some t)
    (hbad : ktime_set c.tv_sec c.tv_nsec ≤ 0 ∨ ktime_set t.tv_sec t.tv_nsec ≤ 0 ∨
      ktime_set t.tv_sec t.tv_nsec < ktime_set c.tv_sec c.tv_nsec) :
    set_rsv env pid₀ curPid store = (.err .EINVAL, store) := by
  refine set_rsv_einval pid₀ curPid store hc ht ?_
  tauto

/-- Witness for C5: the spec scenario C=20ms, T=10ms. -/
theorem c5_invalid_arguments_witness :
    ktime_set 0 10000000 < ktime_set 0 20000000
    ∧ set_rsv (envFor 20 10) 100 999 [] = (.err .EINVAL, []) := by
  refine ⟨by decide, ?_⟩
  exact c5_invalid_arguments (envFor 20 10) 100 999 [] ⟨0, 20000000⟩
    ⟨0, 10000000⟩ (by decide) (by decide) (by decide)

/-- C6: a register call for a task that already has an active
reservation, with well-formed arguments and a resolvable task, fails
`-EBUSY` and returns the store unchanged - the existing reservation's
fields are untouched. -/
theorem c6_duplicate_registration (env : Env) (pid₀ curPid : Int)
    (store : List Rsv) (c t : Timespec) (e : Rsv)
    (hc : env.readC = some c) (ht : env.readT = some t)
    (h1 : ¬(c.tv_sec < 0 ∨ c.tv_nsec < 0 ∨ t.tv_sec < 0 ∨ t.tv_nsec < 0))
    (h2 : ¬(ktime_set c.tv_sec c.tv_nsec ≤ 0 ∨ ktime_set t.tv_sec t.tv_nsec ≤ 0))
    (h3 : ¬ktime_set t.tv_sec t.tv_nsec < ktime_set c.tv_sec c.tv_nsec)
    (hlive : env.liveTask (resolve_pid pid₀ curPid) = true)
    (hdup : p3_find_locked (resolve_pid pid₀ curPid) store = some e) :
    set_rsv env pid₀ curPid store = (.err .EBUSY, store) :=
  set_rsv_ebusy pid₀ curPid store hc ht h1 h2 h3 hlive hdup

/-- Witness for C6: re-registering pid 7, which holds `sampleRsv`. -/
theorem c6_duplicate_registration_witness :
    p3_find_locked 7 [sampleRsv] = some sampleRsv
    ∧ set_rsv (envFor 2 10) 7 999 [sampleRsv] = (.err .EBUSY, [sampleRsv]) := by
  refine ⟨by decide, ?_⟩
  exact c6_duplicate_registration (envFor 2 10) 7 999 [sampleRsv]
    ⟨0, 2000000⟩ ⟨0, 10000000⟩ sampleRsv (by decide) (by decide) (by decide)
    (by decide) (by decide) (by decide) (by decide)

/-- C10: the error checks of `set_rsv` apply in a fixed precedence
order: unreadable user arguments fault first (`-EFAULT`), then argument
validation (`-EINVAL`, regardless of task resolution, duplicates or
capacity), then task resolution (`-ESRCH`), then duplicate detection
(`-EBUSY`, regardless of capacity), then capacity (`-ENOSPC`), then
allocation failure (`-ENOMEM`); in particular an input with C > T and an
unknown task gives `-EINVAL`, not `-ESRCH`, and every failure path
returns the store untouched. -/
theorem c10_error_precedence (env : Env) (pid₀ curPid : Int) (store : List Rsv) :
    (env.readC = none ∨ env.readT = none →
      set_rsv env pid₀ curPid store = (.err .EFAULT, store))
    ∧ (∀ c t : Timespec, env.readC = some c → env.readT = some t →
        (c.tv_sec < 0 ∨ c.tv_nsec < 0 ∨ t.tv_sec < 0 ∨ t.tv_nsec < 0 ∨
          ktime_set c.tv_sec c.tv_nsec ≤ 0 ∨ ktime_set t.tv_sec t.tv_nsec ≤ 0 ∨
          ktime_set t.tv_sec t.tv_nsec < ktime_set c.tv_sec c.tv_nsec) →
        set_rsv env pid₀ curPid store = (.err .EINVAL, store))
    ∧ (∀ c t : Timespec, env.readC = some c → env.readT = some t →
        ¬(c.tv_sec < 0 ∨ c.tv_nsec < 0 ∨ t.tv_sec < 0 ∨ t.tv_nsec < 0) →
        ¬(ktime_set c.tv_sec c.tv_nsec ≤ 0 ∨ ktime_set t.tv_sec t.tv_nsec ≤ 0) →
        ¬ktime_set t.tv_sec t.tv_nsec < ktime_set c.tv_sec c.tv_nsec →
        env.liveTask (resolve_pid pid₀ curPid) = false →
        set_rsv env pid₀ curPid store = (.err .ESRCH, store))
    ∧ (∀ (c t : Timespec) (e : Rsv), env.readC = some c → env.readT = some t →
        ¬(c.tv_sec < 0 ∨ c.tv_nsec < 0 ∨ t.tv_sec < 0 ∨ t.tv_nsec < 0) →
        ¬(ktime_set c.tv_sec c.tv_nsec ≤ 0 ∨ ktime_set t.tv_sec t.tv_nsec ≤ 0) →
        ¬ktime_set t.tv_sec t.tv_nsec < ktime_set c.tv_sec c.tv_nsec →
        env.liveTask (resolve_pid pid₀ curPid) = true →
        p3_find_locked (resolve_pid pid₀ curPid) store = some e →
        set_rsv env pid₀ curPid store = (.err .EBUSY, store))
    ∧ (∀ c t : Timespec, env.readC = some c → env.readT = some t →
        ¬(c.tv_sec < 0 ∨ c.tv_nsec < 0 ∨ t.tv_sec < 0 ∨ t.tv_nsec < 0) →
        ¬(ktime_set c.tv_sec c.tv_nsec ≤ 0 ∨ ktime_set t.tv_sec t.tv_nsec ≤ 0) →
        ¬ktime_set t.tv_sec t.tv_nsec < ktime_set c.tv_sec c.tv_nsec →
        env.liveTask (resolve_pid pid₀ curPid) = true →
        p3_find_locked (resolve_pid pid₀ curPid) store = none →
        P3_MAX_RSV ≤ store.length →
        set_rsv env pid₀ curPid store = (.err .ENOSPC, store))
    ∧ (∀ c t : Timespec, env.readC = some c → env.readT = some t →
        ¬(c.tv_sec < 0 ∨ c.tv_nsec < 0 ∨ t.tv_sec < 0 ∨ t.tv_nsec < 0) →
        ¬(ktime_set c.tv_sec c.tv_nsec ≤ 0 ∨ ktime_set t.tv_sec t.tv_nsec ≤ 0) →
        ¬ktime_set t.tv_sec t.tv_nsec < ktime_set c.tv_sec c.tv_nsec →
        env.liveTask (resolve_pid pid₀ curPid) = true →
        p3_find_locked (resolve_pid pid₀ curPid) store = none →
        store.length < P3_MAX_RSV →
        env.allocOk = false →
        set_rsv env pid₀ curPid store = (.err .ENOMEM, store)) := by
  refine ⟨?_, ?_, ?_, ?_, ?_, ?_⟩
  · intro h; exact set_rsv_efault pid₀ curPid store h
  · intro c t hc ht h; exact set_rsv_einval pid₀ curPid store hc ht h
  · intro c t hc ht h1 h2 h3 hlive
    exact set_rsv_esrch pid₀ curPid store hc ht h1 h2 h3 hlive
  · intro c t e hc ht h1 h2 h3 hlive hdup
    exact set_rsv_ebusy pid₀ curPid store hc ht h1 h2 h3 hlive hdup
  · intro c t hc ht h1 h2 h3 hlive hfind hcap
    exact set_rsv_enospc pid₀ curPid store hc ht h1 h2 h3 hlive hfind hcap
  · intro c t hc ht h1 h2 h3 hlive hfind hcap halloc
    exact set_rsv_enomem pid₀ curPid store hc ht h1 h2 h3 hlive hfind hcap halloc

/-- Witness for C10: C > T together with an unresolvable task gives
`-EINVAL`, not `-ESRCH`. -/
theorem c10_error_precedence_witness :
    (Env.mk (some ⟨0, 20000000⟩) (some ⟨0, 10000000⟩) (fun _ => false)
        true).liveTask 100 = false
    ∧ set_rsv (Env.mk (some ⟨0, 20000000⟩) (some ⟨0, 10000000⟩) (fun _ => false)
        true) 100 999 [] = (.err .EINVAL, []) := by
  refine ⟨rfl, ?_⟩
  exact (c10_error_precedence (Env.mk (some ⟨0, 20000000⟩) (some ⟨0, 10000000⟩)
      (fun _ => false) true) 100 999 []).2.1 ⟨0, 20000000⟩ ⟨0, 10000000⟩
    rfl rfl (by decide)

/-- C8: from an empty store, registering task 100 with (C=2ms, T=10ms)
gives it priority 99 (`MAX_RT_PRIORITY - 1`, the highest available); then
registering task 101 with (C=1ms, T=5ms) gives 101 priority 99 - strictly
above task 100, which is demoted by exactly one rank to 98; cancelling
task 101 restores task 100 to 99. -/
theorem c8_rm_scenario :
    (set_rsv (envFor 2 10) 100 999 []).1 = .ok
    ∧ (p3_find_locked 100 (set_rsv (envFor 2 10) 100 999 []).2).map Rsv.prio
        = some 99
    ∧ (set_rsv (envFor 1 5) 101 999 (set_rsv (envFor 2 10) 100 999 []).2).1 = .ok
    ∧ (p3_find_locked 101 (set_rsv (envFor 1 5) 101 999
        (set_rsv (envFor 2 10) 100 999 []).2).2).map Rsv.prio = some 99
    ∧ (p3_find_locked 100 (set_rsv (envFor 1 5) 101 999
        (set_rsv (envFor 2 10) 100 999 []).2).2).map Rsv.prio = some 98
    ∧ (cancel_rsv 101 999 (set_rsv (envFor 1 5) 101 999
        (set_rsv (envFor 2 10) 100 999 []).2).2).1 = .ok
    ∧ (p3_find_locked 100 (cancel_rsv 101 999 (set_rsv (envFor 1 5) 101 999
        (set_rsv (envFor 2 10) 100 999 []).2).2).2).map Rsv.prio = some 99 := by
  decide

/-- C9: after a successful cancel of `pid`, a register for the same
`pid` with valid arguments, a live task, and free capacity succeeds, and
the new reservation's `period_seq` starts at 0 (a fresh counter). -/
theorem c9_reregister_fresh_sequence (env : Env) (pid curPid : Int)
    (store store₁ : List Rsv) (c t : Timespec)
    (hpid : pid ≠ 0)
    (hdist : store.Pairwise (fun a b => a.pid ≠ b.pid))
    (hcancel : cancel_rsv pid curPid store = (.ok, store₁))
    (hc : env.readC = some c) (ht : env.readT = some t)
    (h1 : ¬(c.tv_sec < 0 ∨ c.tv_nsec < 0 ∨ t.tv_sec < 0 ∨ t.tv_nsec < 0))
    (h2 : ¬(ktime_set c.tv_sec c.tv_nsec ≤ 0 ∨ ktime_set t.tv_sec t.tv_nsec ≤ 0))
    (h3 : ¬ktime_set t.tv_sec t.tv_nsec < ktime_set c.tv_sec c.tv_nsec)
    (hlive : env.liveTask pid = true)
    (hcap : store₁.length < P3_MAX_RSV)
    (halloc : env.allocOk = true) :
    (set_rsv env pid curPid store₁).1 = .ok
    ∧ (p3_find_locked pid (set_rsv env pid curPid store₁).2).map Rsv.period_seq
        = some 0 := by
  have hres : resolve_pid pid curPid = pid := if_neg hpid
  cases hf : p3_find_locked (resolve_pid pid curPid) store with
  | none =>
    rw [cancel_rsv] at hcancel
    rw [hf] at hcancel
    exact absurd hcancel (by simp)
  | some e0 =>
    have hstore₁ : store₁ = p3_reassign_rm_prios_locked
        (p3_remove_first (resolve_pid pid curPid) store) := by
      have h := congrArg Prod.snd hcancel
      rw [cancel_rsv] at h
      rw [hf] at h
      exact h.symm
    have hrm : p3_find_locked pid
        (p3_remove_first (resolve_pid pid curPid) store) = none := by
      rw [hres]
      exact p3_remove_first_find_none store hdist
    have hfind1 : p3_find_locked pid store₁ = none := by
      rw [hstore₁, p3_reassign_find, hrm]
      rfl
    have hsucc := set_rsv_success pid curPid store₁ hc ht h1 h2 h3
      (by rw [hres]; exact hlive) (by rw [hres]; exact hfind1) hcap halloc
    refine ⟨by rw [hsucc], ?_⟩
    rw [hsucc]
    have happ : p3_find_locked pid (store₁ ++
        [{ pid := resolve_pid pid curPid,
           C_ns := ktime_set c.tv_sec c.tv_nsec,
           T_ns := ktime_set t.tv_sec t.tv_nsec,
           prio := 0, period_seq := 0, canceled := false, timerArmed := true }]) =
        some { pid := resolve_pid pid curPid,
               C_ns := ktime_set c.tv_sec c.tv_nsec,
               T_ns := ktime_set t.tv_sec t.tv_nsec,
               prio := 0, period_seq := 0, canceled := false,
               timerArmed := true } := by
      rw [p3_find_locked_append hfind1]
      simp [p3_find_locked, hres]
    obtain ⟨e', he', _, _, _, hseq, _, _⟩ := p3_reassign_find_fields happ
    rw [he', Option.map_some', hseq]

/-- Witness for C9: cancel pid 7's reservation, then re-register it. -/
theorem c9_reregister_fresh_sequence_witness :
    cancel_rsv 7 999 [sampleRsv] = (.ok, [])
    ∧ (set_rsv (envFor 2 10) 7 999 []).1 = .ok
    ∧ (p3_find_locked 7 (set_rsv (envFor 2 10) 7 999 []).2).map Rsv.period_seq
        = some 0 := by
  refine ⟨by decide, ?_⟩
  exact c9_reregister_fresh_sequence (envFor 2 10) 7 999 [sampleRsv] []
    ⟨0, 2000000⟩ ⟨0, 10000000⟩ (by decide) (by simp) (by decide) (by decide)
    (by decide) (by decide) (by decide) (by decide) (by decide)
    (by decide) (by decide)

/-! ### Helper lemmas: the recompute pass as a whole -/

theorem p3_reassign_ranked_pairwise (store : List Rsv)
    (h50 : store.length ≤ P3_MAX_RSV) :
    (assignPrios 0 (p3_sort (store.take P3_MAX_RSV))).Pairwise
      (fun a b => a.T_ns ≤ b.T_ns ∧ b.prio < a.prio) := by
  rw [List.take_of_length_le h50]
  refine assignPrios_pairwise 0 _ (p3_sort_sorted store) ?_
  rw [(p3_sort_perm store).length_eq]
  have h50' : (store.length : Int) ≤ (P3_MAX_RSV : Int) := by exact_mod_cast h50
  simp only [MAX_RT_PRIORITY, P3_MAX_RSV] at *
  omega

theorem p3_reassign_mem_spec (store : List Rsv)
    (h50 : store.length ≤ P3_MAX_RSV)
    (hdist : store.Pairwise (fun a b => a.pid ≠ b.pid)) :
    ∀ a ∈ p3_reassign_rm_prios_locked store,
      ∃ u ∈ assignPrios 0 (p3_sort (store.take P3_MAX_RSV)),
        u.T_ns = a.T_ns ∧ u.prio = a.prio := by
  intro a ha
  rw [p3_reassign_rm_prios_locked] at ha
  obtain ⟨ea, hea, hfa⟩ := List.mem_map.mp ha
  have hperm : (p3_sort (store.take P3_MAX_RSV)).Perm store := by
    rw [List.take_of_length_le h50]
    exact p3_sort_perm store
  have hmem : ea ∈ p3_sort (store.take P3_MAX_RSV) := hperm.mem_iff.mpr hea
  obtain ⟨s₀, hs₀, hs₀eq⟩ := assignPrios_mem_rev 0 _ hmem
  cases hfind : (assignPrios 0 (p3_sort (store.take P3_MAX_RSV))).find?
      (fun s => s.pid == ea.pid) with
  | none =>
    exfalso
    apply List.find?_eq_none.mp hfind s₀ hs₀
    have hpid : s₀.pid = ea.pid := by rw [hs₀eq]
    simp [hpid]
  | some s =>
    have hspid : s.pid = ea.pid := by
      have h := List.find?_some hfind
      simpa using h
    have hs : s ∈ assignPrios 0 (p3_sort (store.take P3_MAX_RSV)) :=
      List.mem_of_find?_eq_some hfind
    obtain ⟨e₀, he₀, he₀eq⟩ := assignPrios_mem 0 _ hs
    have he₀store : e₀ ∈ store := hperm.mem_iff.mp he₀
    have he₀pid : e₀.pid = ea.pid := by
      have h : s.pid = e₀.pid := by rw [he₀eq]
      rw [← h, hspid]
    have he₀ea : e₀ = ea := by
      by_contra hne
      exact List.Pairwise.forall (fun _ _ h => Ne.symm h) hdist
        he₀store hea hne he₀pid
    have haval : a = { ea with prio := s.prio } := by
      rw [← hfa]
      simp only [hfind]
    subst haval
    refine ⟨s, hs, ?_, rfl⟩
    have hsT : s.T_ns = e₀.T_ns := by rw [he₀eq]
    rw [hsT, he₀ea]

/-- A second distinct reservation for witnesses. -/
def sampleRsv₂ : Rsv :=
  { pid := 9, C_ns := 1000000, T_ns := 5000000, prio := 0,
    period_seq := 0, canceled := false, timerArmed := true }

/-- C1: for every store of at most 50 reservations (with distinct task
ids), one recompute pass (1) produces a reordering (permutation) of the
reservations that (2) is sorted by ascending period T; (3) the entry of
rank i (0-based) in that order is assigned priority
`(MAX_RT_PRIORITY - 1) - i` clamped below at 1 (`clampPrio i`), and (4) the
clamp keeps every assigned value at or above the lowest valid real-time
priority 1; consequently (5) among the recomputed reservations, of two
with distinct periods the one with the smaller period has the strictly
higher priority (priorities strictly decrease along period rank), and
(6) every recomputed priority is at least 1. -/
theorem c1_rm_priority_assignment (store : List Rsv)
    (h50 : store.length ≤ P3_MAX_RSV)
    (hdist : store.Pairwise (fun a b => a.pid ≠ b.pid)) :
    (p3_sort (store.take P3_MAX_RSV)).Perm store
    ∧ (p3_sort (store.take P3_MAX_RSV)).Pairwise (fun a b => a.T_ns ≤ b.T_ns)
    ∧ (∀ i : Nat, (assignPrios 0 (p3_sort (store.take P3_MAX_RSV)))[i]? =
        ((p3_sort (store.take P3_MAX_RSV))[i]?).map
          (fun e => { e with prio := clampPrio i }))
    ∧ (∀ i : Nat, 1 ≤ clampPrio i)
    ∧ (∀ a ∈ p3_reassign_rm_prios_locked store,
        ∀ b ∈ p3_reassign_rm_prios_locked store,
        a.T_ns < b.T_ns → b.prio < a.prio)
    ∧ (∀ a ∈ p3_reassign_rm_prios_locked store, 1 ≤ a.prio) := by
  have htake : store.take P3_MAX_RSV = store := List.take_of_length_le h50
  refine ⟨?_, ?_, ?_, clampPrio_pos, ?_, ?_⟩
  · rw [htake]; exact p3_sort_perm store
  · rw [htake]; exact p3_sort_sorted store
  · intro i
    rw [assignPrios_getElem?]
    simp
  · intro a ha b hb hT
    obtain ⟨u, hu, huT, hup⟩ := p3_reassign_mem_spec store h50 hdist a ha
    obtain ⟨v, hv, hvT, hvp⟩ := p3_reassign_mem_spec store h50 hdist b hb
    have hne : u ≠ v := by
      intro h
      have heq : a.T_ns = b.T_ns := by rw [← huT, h, hvT]
      omega
    have hpair' : (assignPrios 0 (p3_sort (store.take P3_MAX_RSV))).Pairwise
        (fun x y : Rsv =>
          (x.T_ns ≤ y.T_ns ∧ y.prio < x.prio) ∨
          (y.T_ns ≤ x.T_ns ∧ x.prio < y.prio)) :=
      (p3_reassign_ranked_pairwise store h50).imp (fun h => Or.inl h)
    have hsym : Symmetric (fun x y : Rsv =>
        (x.T_ns ≤ y.T_ns ∧ y.prio < x.prio) ∨
        (y.T_ns ≤ x.T_ns ∧ x.prio < y.prio)) := fun _ _ h => h.symm
    have hR := List.Pairwise.forall hsym hpair' hu hv hne
    rcases hR with ⟨_, hlt⟩ | ⟨hle, _⟩
    · rw [← hup, ← hvp]; exact hlt
    · exfalso
      rw [huT, hvT] at hle
      omega
  · intro a ha
    obtain ⟨u, hu, _, hup⟩ := p3_reassign_mem_spec store h50 hdist a ha
    rw [← hup]
    exact assignPrios_prio_pos 0 _ hu

/-- Witness for C1 at a concrete two-reservation store. -/
theorem c1_rm_priority_assignment_witness :
    ([sampleRsv, sampleRsv₂] : List Rsv).length ≤ P3_MAX_RSV
    ∧ ([sampleRsv, sampleRsv₂] : List Rsv).Pairwise (fun a b => a.pid ≠ b.pid)
    ∧ (p3_sort ([sampleRsv, sampleRsv₂].take P3_MAX_RSV)).Perm
        [sampleRsv, sampleRsv₂] := by
  have hdist : ([sampleRsv, sampleRsv₂] : List Rsv).Pairwise
      (fun a b => a.pid ≠ b.pid) := by decide
  exact ⟨by decide, hdist,
    (c1_rm_priority_assignment [sampleRsv, sampleRsv₂] (by decide) hdist).1⟩
